import Mathlib

/-!
Verification of `src/trash_unlabeled_archived.py`, a Gmail cleanup CLI.

The script has three phases: `get_gmail_service` (OAuth credential loading
with a fallback flow), `list_message_ids` (pagination of the search API with
an optional cap), and `batch_trash` (chunked iteration over the matched IDs
with a dry-run mode, throttling sleeps, and a bounded retry with exponential
backoff on transient HTTP errors).

The external Gmail/OAuth services are modelled as oracles: environments
recording the outcome of each external call.  The script's observable
behaviour is its return value, the exception it lets escape (if any), and the
trace of side effects it performs (trash mutation calls and sleeps).
-/

namespace GmailCleanup

/-- Python exception values, kept abstract: only identity matters here. -/
inductive PyErr where
  | err (msg : String)
deriving DecidableEq

/-! ### get_gmail_service -/

/-- Model of a `google.oauth2.credentials.Credentials` object: the fields the
script reads.  `valid`, `expired` are booleans; `refresh_token` models the
truthiness of the refresh-token attribute; `to_json` is the serialised form
written to the token file. -/
structure Creds where
  valid : Bool
  expired : Bool
  refresh_token : Bool
  to_json : String
deriving DecidableEq

/-- Model of the object returned by `build("gmail", "v1", credentials=creds)`. -/
structure GmailService where
  creds : Creds
deriving DecidableEq

/-- Oracle for the external calls made by `get_gmail_service`:
`loadToken` is `Credentials.from_authorized_user_file` (ok, or the exception
it raises); `refreshResult` is the state of `creds` after `creds.refresh(Request())`
(or the exception); `flowResult` is `InstalledAppFlow.from_client_secrets_file`
followed by `flow.run_local_server(port=0)`; `writeResult s` is opening the
token file and writing the string `s`; `buildResult` is `build(...)`. -/
structure AuthEnv where
  loadToken : Except PyErr Creds
  refreshResult : Except PyErr Creds
  flowResult : Except PyErr Creds
  writeResult : String → Except PyErr Unit
  buildResult : Creds → Except PyErr GmailService

/-- Embedding of `get_gmail_service` (src lines 16-32).  The `try/except`
around `Credentials.from_authorized_user_file` maps the exception to `none`;
afterwards the code is `if not creds or not creds.valid: (refresh-or-flow;
write token) ; return build(...)`.  Exceptions from refresh, the OAuth flow,
the token write and `build` are not caught anywhere and so surface as
`Except.error`. -/
def get_gmail_service (env : AuthEnv) : Except PyErr GmailService :=
  let creds0 : Option Creds :=
    match env.loadToken with
    | Except.ok c => some c
    | Except.error _ => none
  match creds0 with
  | some c =>
    if c.valid then
      env.buildResult c
    else do
      let creds ← if c.expired && c.refresh_token then env.refreshResult else env.flowResult
      let _ ← env.writeResult creds.to_json
      env.buildResult creds
  | none => do
      let creds ← env.flowResult
      let _ ← env.writeResult creds.to_json
      env.buildResult creds

/-! ### list_message_ids -/

/-- Model of one response of `users().messages().list(...).execute()`:
`messages` is the list of message IDs on the page (`res.get("messages", [])`,
each entry read through `m["id"]`), `nextPageToken` is
`res.get("nextPageToken")` (`none` when the key is absent). -/
structure PageResp where
  messages : List String
  nextPageToken : Option String
deriving DecidableEq

/-- Python truthiness of the `page_token` value: `None` and the empty string
are falsy. -/
def tokenTruthy : Option String → Bool
  | none => false
  | some s => !s.isEmpty

/-- Python slice `xs[:m]` for an arbitrary integer bound `m`: a nonnegative
bound takes the first `m` elements, a negative bound drops the last `-m`. -/
def pySliceTo (xs : List String) (m : Int) : List String :=
  if 0 ≤ m then xs.take m.toNat else xs.take (xs.length - (-m).toNat)

/-- Worker loop of `list_message_ids` (src lines 38-54).  The service is an
oracle giving the successive responses of the `list` call (each either a page
or a raised exception).  `acc` is the `ids` accumulator.  The outer `Option`
is `none` only when the oracle stream runs out, i.e. the loop would keep
requesting pages; every actual run is covered by a long enough stream. -/
def listLoop (maxMessages : Option Int) :
    List (Except PyErr PageResp) → List String → Option (Except PyErr (List String))
  | [], _ => none
  | Except.error e :: _, _ => some (Except.error e)
  | Except.ok res :: rest, acc =>
    let ids := acc ++ res.messages
    match maxMessages with
    | some m =>
      if (ids.length : Int) ≥ m then some (Except.ok (pySliceTo ids m))
      else if tokenTruthy res.nextPageToken then listLoop maxMessages rest ids
      else some (Except.ok ids)
    | none =>
      if tokenTruthy res.nextPageToken then listLoop maxMessages rest ids
      else some (Except.ok ids)

/-- Embedding of `list_message_ids` (src lines 34-56): run the page loop with
an empty accumulator. -/
def list_message_ids (resps : List (Except PyErr PageResp))
    (maxMessages : Option Int) : Option (Except PyErr (List String)) :=
  listLoop maxMessages resps []

/-! ### batch_trash -/

/-- Outcome of one `users().messages().trash(...).execute()` call: success, or
an `HttpError` whose `resp` has the given `status` attribute
(`getattr(e.resp, "status", None)`). -/
inductive TrashOut where
  | success
  | httpError (status : Option Nat)
deriving DecidableEq

/-- Oracle for the trash endpoint: the outcome of the attempt numbered
`attempt` for the message `mid`. -/
structure TrashEnv where
  trashResult : String → Nat → TrashOut

/-- Observable side effects of `batch_trash`: a trash mutation call (with the
retry attempt number that issued it), the backoff sleep inside the retry
loop, and the throttling sleep after each message. -/
inductive Ev where
  | trashCall (mid : String) (attempt : Nat)
  | sleepBackoff (seconds : Rat)
  | sleepThrottle (seconds : Rat)
deriving DecidableEq

/-- Statuses retried by `batch_trash`: `status in (429, 500, 503)`. -/
def transientStatus : Option Nat → Bool
  | some 429 => true
  | some 500 => true
  | some 503 => true
  | _ => false

/-- Backoff duration of attempt `attempt`: `(2 ** attempt) * 0.5` seconds
(src line 81); exact in binary floating point, so `Rat` is faithful. -/
def backoff (attempt : Nat) : Rat := (2 ^ attempt : Rat) * (1 / 2)

/-- Result of the inner `for attempt in range(5)` retry loop for one message:
either the loop exited (`counted` tells whether the `trashed += 1; break`
path was taken, `false` when all attempts failed transiently), or a
non-transient `HttpError` was re-raised. -/
inductive RetryRes where
  | done (counted : Bool) (evs : List Ev)
  | raised (status : Option Nat) (evs : List Ev)
deriving DecidableEq

/-- Embedding of the retry loop (src lines 73-84), from attempt number
`attempt` with `fuel` attempts remaining.  Each iteration issues the trash
call; on success it counts and breaks; on a transient `HttpError` it sleeps
`backoff attempt` and continues; on any other `HttpError` it re-raises. -/
def retryFrom (env : TrashEnv) (mid : String) : Nat → Nat → RetryRes
  | _, 0 => RetryRes.done false []
  | attempt, fuel + 1 =>
    match env.trashResult mid attempt with
    | TrashOut.success => RetryRes.done true [Ev.trashCall mid attempt]
    | TrashOut.httpError st =>
      if transientStatus st then
        match retryFrom env mid (attempt + 1) fuel with
        | RetryRes.done c evs =>
          RetryRes.done c (Ev.trashCall mid attempt :: Ev.sleepBackoff (backoff attempt) :: evs)
        | RetryRes.raised s evs =>
          RetryRes.raised s (Ev.trashCall mid attempt :: Ev.sleepBackoff (backoff attempt) :: evs)
      else
        RetryRes.raised st [Ev.trashCall mid attempt]

/-- Result of `batch_trash`: normal return with the `trashed` counter, a
re-raised `HttpError` escaping the function, or the `ValueError` that
`range(0, n, 0)` raises on a zero step. -/
inductive BTRes where
  | ok (trashed : Nat)
  | httpRaised (status : Option Nat)
  | valueError
deriving DecidableEq

/-- Embedding of the body of the per-chunk `for mid in chunk` loop flattened
over a list of message IDs, threading the `trashed` counter (src lines
67-86).  Dry run counts and `continue`s (no call, no sleep); otherwise the
retry loop runs and `time.sleep(sleep_s)` follows it, and a re-raise aborts
the whole iteration. -/
def runMids (env : TrashEnv) (dryRun : Bool) (sleepS : Rat) :
    List String → Nat → BTRes × List Ev
  | [], trashed => (BTRes.ok trashed, [])
  | mid :: rest, trashed =>
    if dryRun then runMids env dryRun sleepS rest (trashed + 1)
    else
      match retryFrom env mid 0 5 with
      | RetryRes.raised st evs => (BTRes.httpRaised st, evs)
      | RetryRes.done counted evs =>
        let out := runMids env dryRun sleepS rest (if counted then trashed + 1 else trashed)
        (out.1, evs ++ Ev.sleepThrottle sleepS :: out.2)

/-- Embedding of the outer `for i in range(0, len(message_ids), batch_size)`
loop over the already-sliced chunks (src lines 65-88; the progress `print` has
no modelled effect). -/
def runChunks (env : TrashEnv) (dryRun : Bool) (sleepS : Rat) :
    List (List String) → Nat → BTRes × List Ev
  | [], trashed => (BTRes.ok trashed, [])
  | c :: cs, trashed =>
    match runMids env dryRun sleepS c trashed with
    | (BTRes.ok t, evs) =>
      let out := runChunks env dryRun sleepS cs t
      (out.1, evs ++ out.2)
    | other => other

/-- Python `range(start, stop, step)` for a positive `step` (the `step - 1`
in the recursive call equals `step - 1` as the successor step is
`start + step`; the definition is only used with `1 ≤ step`). -/
def pyRangeUp (start stop step : Nat) : List Nat :=
  if start < stop then start :: pyRangeUp (start + 1 + (step - 1)) stop step else []
termination_by stop - start
decreasing_by omega

/-- Chunks sliced by `batch_trash`: `message_ids[i:i+batch_size]` for
`i in range(0, len(message_ids), batch_size)` (src lines 65-66). -/
def pyChunksOf (ids : List String) (bs : Nat) : List (List String) :=
  (pyRangeUp 0 ids.length bs).map (fun i => (ids.drop i).take bs)

/-- Embedding of `batch_trash` (src lines 58-90).  `batchSize` is an `int`
from argparse: `range(0, n, 0)` raises `ValueError`, a negative step yields
an empty range (no iteration, return `0`), and a positive step produces the
chunked traversal. -/
def batch_trash (env : TrashEnv) (message_ids : List String) (dryRun : Bool)
    (batchSize : Int) (sleepS : Rat) : BTRes × List Ev :=
  if batchSize = 0 then (BTRes.valueError, [])
  else if batchSize < 0 then (BTRes.ok 0, [])
  else runChunks env dryRun sleepS (pyChunksOf message_ids batchSize.toNat) 0

/-! ### Observation helpers over traces -/

/-- Event trace of a retry-loop result. -/
def RetryRes.evs : RetryRes → List Ev
  | RetryRes.done _ e => e
  | RetryRes.raised _ e => e

/-- Whether an event is a trash mutation call (any attempt, any message). -/
def Ev.isTrashCall : Ev → Bool
  | Ev.trashCall _ _ => true
  | _ => false

/-- Whether an event is a trash call for message `m` whose oracle outcome is
success, i.e. a mutation that actually trashed `m`. -/
def isSuccessCall (env : TrashEnv) (m : String) : Ev → Bool
  | Ev.trashCall m2 k => m2 == m && (env.trashResult m2 k == TrashOut.success)
  | _ => false

/-- Durations of the backoff sleeps of a trace, in order. -/
def backoffSleeps (evs : List Ev) : List Rat :=
  evs.filterMap fun e =>
    match e with
    | Ev.sleepBackoff r => some r
    | _ => none

/-! ### Concrete sample environments and data used by witnesses -/

/-- Oracle where every trash attempt fails with HTTP 429. -/
def envT429 : TrashEnv := ⟨fun _ _ => TrashOut.httpError (some 429)⟩

/-- Oracle where every trash attempt fails with HTTP 500. -/
def envT500 : TrashEnv := ⟨fun _ _ => TrashOut.httpError (some 500)⟩

/-- Oracle where every trash attempt fails with a non-transient HTTP 404. -/
def envE404 : TrashEnv := ⟨fun _ _ => TrashOut.httpError (some 404)⟩

/-- Oracle where every trash attempt succeeds. -/
def envOkAll : TrashEnv := ⟨fun _ _ => TrashOut.success⟩

/-- Oracle where message `a` always fails transiently (503) and every other
message succeeds. -/
def envSkipA : TrashEnv :=
  ⟨fun m _ => if m = "a" then TrashOut.httpError (some 503) else TrashOut.success⟩

/-- Fresh, valid credentials as produced by a successful OAuth flow. -/
def credsFresh : Creds := ⟨true, false, false, "fresh"⟩

/-- Stale credentials: invalid, expired, with a refresh token. -/
def credsStale : Creds := ⟨false, true, true, "stale"⟩

/-- Auth environment whose cached-token load raises and in which every later
step succeeds. -/
def authEnvLoadFail : AuthEnv :=
  ⟨Except.error (PyErr.err "corrupt token file"), Except.ok credsFresh,
   Except.ok credsFresh, fun _ => Except.ok (), fun cr => Except.ok ⟨cr⟩⟩

/-- Auth environment with a stale cached token whose refresh raises. -/
def authEnvRefreshFail : AuthEnv :=
  ⟨Except.ok credsStale, Except.error (PyErr.err "refresh failed"),
   Except.ok credsFresh, fun _ => Except.ok (), fun cr => Except.ok ⟨cr⟩⟩

/-! ### Chunking lemmas -/

lemma pyRangeUp_slice_flatten (bs : Nat) (hbs : 1 ≤ bs) (ids : List String) :
    ∀ n start, ids.length - start ≤ n →
      ((pyRangeUp start ids.length bs).map fun i => (ids.drop i).take bs).flatten
        = ids.drop start := by
  intro n
  induction n with
  | zero =>
    intro start h
    have hge : ¬ start < ids.length := by omega
    rw [pyRangeUp]
    simp only [hge, if_false, List.map_nil, List.flatten_nil]
    exact (List.drop_eq_nil_of_le (by omega)).symm
  | succ n ih =>
    intro start h
    rw [pyRangeUp]
    by_cases hc : start < ids.length
    · simp only [hc, if_true, List.map_cons, List.flatten_cons]
      have hstep : start + 1 + (bs - 1) = start + bs := by omega
      rw [hstep, ih (start + bs) (by omega)]
      have hdd : ids.drop (start + bs) = (ids.drop start).drop bs := by
        rw [List.drop_drop]
      rw [hdd]
      exact List.take_append_drop bs (ids.drop start)
    · simp only [hc, if_false, List.map_nil, List.flatten_nil]
      exact (List.drop_eq_nil_of_le (by omega)).symm

lemma pyChunksOf_flatten (ids : List String) (bs : Nat) (hbs : 1 ≤ bs) :
    (pyChunksOf ids bs).flatten = ids := by
  have := pyRangeUp_slice_flatten bs hbs ids ids.length 0 (by omega)
  simpa [pyChunksOf] using this

/-! ### Structure of the batch_trash traversal -/

lemma runMids_append_ok (env : TrashEnv) (d : Bool) (s : Rat) :
    ∀ (a b : List String) (t t2 : Nat) (evs : List Ev),
      runMids env d s a t = (BTRes.ok t2, evs) →
      runMids env d s (a ++ b) t
        = ((runMids env d s b t2).1, evs ++ (runMids env d s b t2).2) := by
  intro a
  induction a with
  | nil =>
    intro b t t2 evs h
    simp only [runMids, Prod.mk.injEq, BTRes.ok.injEq] at h
    obtain ⟨h1, h2⟩ := h
    subst h1
    subst h2
    simp
  | cons mid rest ih =>
    intro b t t2 evs h
    cases d with
    | true =>
      simp only [runMids, if_true] at h ⊢
      exact ih b (t + 1) t2 evs h
    | false =>
      cases hr : retryFrom env mid 0 5 with
      | raised st evs0 =>
        simp only [runMids, Bool.false_eq_true, if_false, hr, Prod.mk.injEq] at h
        exact absurd h.1 (by simp)
      | done c evs0 =>
        rcases hq : runMids env false s rest (if c then t + 1 else t) with ⟨r2, e2⟩
        simp only [runMids, Bool.false_eq_true, if_false, hr, hq, Prod.mk.injEq] at h
        obtain ⟨h1, h2⟩ := h
        subst h2
        have hrec := ih b (if c then t + 1 else t) t2 e2 (by rw [hq, h1])
        simp only [List.cons_append, runMids, Bool.false_eq_true, if_false, hr,
          List.append_eq]
        rw [hrec]
        simp [List.append_assoc]

lemma runMids_append_abort (env : TrashEnv) (d : Bool) (s : Rat) :
    ∀ (a b : List String) (t : Nat) (st : Option Nat) (evs : List Ev),
      runMids env d s a t = (BTRes.httpRaised st, evs) →
      runMids env d s (a ++ b) t = (BTRes.httpRaised st, evs) := by
  intro a
  induction a with
  | nil =>
    intro b t st evs h
    simp only [runMids, Prod.mk.injEq] at h
    exact absurd h.1 (by simp)
  | cons mid rest ih =>
    intro b t st evs h
    cases d with
    | true =>
      simp only [runMids, if_true] at h ⊢
      exact ih b (t + 1) st evs h
    | false =>
      cases hr : retryFrom env mid 0 5 with
      | raised st0 evs0 =>
        simp only [runMids, Bool.false_eq_true, if_false, hr, Prod.mk.injEq] at h
        simp only [List.cons_append, runMids, Bool.false_eq_true, if_false, hr, Prod.mk.injEq]
        exact h
      | done c evs0 =>
        rcases hq : runMids env false s rest (if c then t + 1 else t) with ⟨r2, e2⟩
        simp only [runMids, Bool.false_eq_true, if_false, hr, hq, Prod.mk.injEq] at h
        obtain ⟨h1, h2⟩ := h
        subst h2
        have hrec := ih b (if c then t + 1 else t) st e2 (by rw [hq, h1])
        simp only [List.cons_append, runMids, Bool.false_eq_true, if_false, hr,
          List.append_eq]
        rw [hrec]

lemma runMids_not_valueError (env : TrashEnv) (d : Bool) (s : Rat) :
    ∀ (ids : List String) (t : Nat) (evs : List Ev),
      runMids env d s ids t ≠ (BTRes.valueError, evs) := by
  intro ids
  induction ids with
  | nil =>
    intro t evs
    simp [runMids]
  | cons mid rest ih =>
    intro t evs
    cases d with
    | true =>
      simp only [runMids, if_true]
      exact ih (t + 1) evs
    | false =>
      cases hr : retryFrom env mid 0 5 with
      | raised st0 evs0 => simp [runMids, hr]
      | done c0 evs0 =>
        rcases hq : runMids env false s rest (if c0 then t + 1 else t) with ⟨r2, e2⟩
        cases r2 with
        | ok t3 => simp [runMids, hr, hq]
        | httpRaised st3 => simp [runMids, hr, hq]
        | valueError => exact absurd hq (ih (if c0 then t + 1 else t) e2)

lemma runChunks_eq_flatten (env : TrashEnv) (d : Bool) (s : Rat) :
    ∀ (cs : List (List String)) (t : Nat),
      runChunks env d s cs t = runMids env d s cs.flatten t := by
  intro cs
  induction cs with
  | nil =>
    intro t
    simp [runChunks, runMids]
  | cons c cs ih =>
    intro t
    rcases hm : runMids env d s c t with ⟨r, evs⟩
    cases r with
    | ok t2 =>
      rw [List.flatten_cons, runMids_append_ok env d s c cs.flatten t t2 evs hm]
      simp only [runChunks, hm, ih t2]
    | httpRaised st =>
      rw [List.flatten_cons, runMids_append_abort env d s c cs.flatten t st evs hm]
      simp only [runChunks, hm]
    | valueError =>
      exact absurd hm (runMids_not_valueError env d s c t evs)

lemma batch_trash_pos (env : TrashEnv) (ids : List String) (d : Bool)
    (bs : Int) (s : Rat) (hbs : 0 < bs) :
    batch_trash env ids d bs s = runMids env d s ids 0 := by
  rw [batch_trash, if_neg (by omega), if_neg (by omega), runChunks_eq_flatten,
    pyChunksOf_flatten ids bs.toNat (by omega)]

lemma runMids_dry (env : TrashEnv) (s : Rat) :
    ∀ (ids : List String) (t : Nat),
      runMids env true s ids t = (BTRes.ok (t + ids.length), []) := by
  intro ids
  induction ids with
  | nil =>
    intro t
    simp [runMids]
  | cons mid rest ih =>
    intro t
    simp only [runMids, if_true, ih, List.length_cons, Prod.mk.injEq, BTRes.ok.injEq]
    exact ⟨by omega, trivial⟩

/-! ### Properties of the retry loop -/

lemma retryFrom_evs_calls (env : TrashEnv) (mid : String) :
    ∀ (fuel attempt : Nat) (m : String) (k : Nat),
      Ev.trashCall m k ∈ (retryFrom env mid attempt fuel).evs →
      m = mid ∧ attempt ≤ k ∧ k < attempt + fuel := by
  intro fuel
  induction fuel with
  | zero =>
    intro attempt m k h
    simp [retryFrom, RetryRes.evs] at h
  | succ fuel ih =>
    intro attempt m k h
    cases ho : env.trashResult mid attempt with
    | success =>
      simp only [retryFrom, ho, RetryRes.evs, List.mem_singleton, Ev.trashCall.injEq] at h
      exact ⟨h.1, by omega⟩
    | httpError st =>
      by_cases ht : transientStatus st = true
      · cases hrr : retryFrom env mid (attempt + 1) fuel with
        | done c evs0 =>
          simp only [retryFrom, ho, ht, if_true, hrr, RetryRes.evs, List.mem_cons] at h
          rcases h with h | h | h
          · injection h with h1 h2
            exact ⟨h1, by omega⟩
          · exact absurd h (by simp)
          · have := ih (attempt + 1) m k (by rw [hrr]; exact h)
            exact ⟨this.1, by omega⟩
        | raised st2 evs0 =>
          simp only [retryFrom, ho, ht, if_true, hrr, RetryRes.evs, List.mem_cons] at h
          rcases h with h | h | h
          · injection h with h1 h2
            exact ⟨h1, by omega⟩
          · exact absurd h (by simp)
          · have := ih (attempt + 1) m k (by rw [hrr]; exact h)
            exact ⟨this.1, by omega⟩
      · rw [Bool.not_eq_true] at ht
        simp only [retryFrom, ho, ht, Bool.false_eq_true, if_false, RetryRes.evs,
          List.mem_singleton, Ev.trashCall.injEq] at h
        exact ⟨h.1, by omega⟩

lemma countP_singleton_le_one (p : Ev → Bool) (a : Ev) : List.countP p [a] ≤ 1 := by
  by_cases hp : p a <;> simp [List.countP_cons, hp]

lemma retryFrom_succCount (env : TrashEnv) (m mid : String) :
    ∀ (fuel attempt : Nat),
      (retryFrom env mid attempt fuel).evs.countP (isSuccessCall env m) ≤ 1 := by
  intro fuel
  induction fuel with
  | zero =>
    intro attempt
    simp [retryFrom, RetryRes.evs]
  | succ fuel ih =>
    intro attempt
    cases ho : env.trashResult mid attempt with
    | success =>
      simp only [retryFrom, ho, RetryRes.evs]
      exact countP_singleton_le_one _ _
    | httpError st =>
      have hcall : isSuccessCall env m (Ev.trashCall mid attempt) = false := by
        simp [isSuccessCall, ho]
      by_cases ht : transientStatus st = true
      · cases hrr : retryFrom env mid (attempt + 1) fuel with
        | done c evs0 =>
          have hrec := ih (attempt + 1)
          rw [hrr] at hrec
          simp only [RetryRes.evs] at hrec
          simp only [retryFrom, ho, ht, if_true, hrr, RetryRes.evs]
          simpa [List.countP_cons, isSuccessCall, ho] using hrec
        | raised st2 evs0 =>
          have hrec := ih (attempt + 1)
          rw [hrr] at hrec
          simp only [RetryRes.evs] at hrec
          simp only [retryFrom, ho, ht, if_true, hrr, RetryRes.evs]
          simpa [List.countP_cons, isSuccessCall, ho] using hrec
      · rw [Bool.not_eq_true] at ht
        simp only [retryFrom, ho, ht, Bool.false_eq_true, if_false, RetryRes.evs]
        exact countP_singleton_le_one _ _

lemma retryFrom_succCount_other (env : TrashEnv) (m mid : String) (hne : m ≠ mid)
    (fuel attempt : Nat) :
    (retryFrom env mid attempt fuel).evs.countP (isSuccessCall env m) = 0 := by
  rw [List.countP_eq_zero]
  intro ev hev
  cases ev with
  | trashCall m2 k =>
    have hmem := retryFrom_evs_calls env mid fuel attempt m2 k hev
    have h2 : ¬ (mid = m) := fun hh => hne hh.symm
    simp [isSuccessCall, hmem.1, h2]
  | sleepBackoff r => simp [isSuccessCall]
  | sleepThrottle r => simp [isSuccessCall]

/-! ### Trace facts of the full traversal -/

lemma runMids_calls (env : TrashEnv) (s : Rat) (d : Bool) :
    ∀ (ids : List String) (t : Nat) (m : String) (k : Nat),
      Ev.trashCall m k ∈ (runMids env d s ids t).2 → m ∈ ids ∧ k < 5 := by
  intro ids
  induction ids with
  | nil =>
    intro t m k h
    simp [runMids] at h
  | cons mid rest ih =>
    intro t m k h
    cases d with
    | true =>
      rw [runMids_dry] at h
      simp at h
    | false =>
      cases hr : retryFrom env mid 0 5 with
      | raised st0 evs0 =>
        simp only [runMids, Bool.false_eq_true, if_false, hr] at h
        obtain ⟨hm, hk1, hk2⟩ := retryFrom_evs_calls env mid 5 0 m k (by rw [hr]; exact h)
        exact ⟨by simp [hm], by omega⟩
      | done c0 evs0 =>
        simp only [runMids, Bool.false_eq_true, if_false, hr] at h
        rw [List.mem_append] at h
        rcases h with h | h
        · obtain ⟨hm, hk1, hk2⟩ := retryFrom_evs_calls env mid 5 0 m k (by rw [hr]; exact h)
          exact ⟨by simp [hm], by omega⟩
        · rw [List.mem_cons] at h
          rcases h with h | h
          · exact absurd h (by simp)
          · obtain ⟨h1, h2⟩ := ih (if c0 then t + 1 else t) m k h
            exact ⟨List.mem_cons_of_mem _ h1, h2⟩

lemma runMids_succCount_zero (env : TrashEnv) (s : Rat) (d : Bool)
    (ids : List String) (t : Nat) (m : String) (hm : m ∉ ids) :
    (runMids env d s ids t).2.countP (isSuccessCall env m) = 0 := by
  rw [List.countP_eq_zero]
  intro ev hev
  cases ev with
  | trashCall m2 k =>
    by_cases he : m2 = m
    · subst he
      exact absurd (runMids_calls env s d ids t m2 k hev).1 hm
    · simp [isSuccessCall, he]
  | sleepBackoff r => simp [isSuccessCall]
  | sleepThrottle r => simp [isSuccessCall]

lemma runMids_succCount_le_one (env : TrashEnv) (s : Rat) (d : Bool) :
    ∀ (ids : List String) (t : Nat) (m : String), ids.Nodup →
      (runMids env d s ids t).2.countP (isSuccessCall env m) ≤ 1 := by
  intro ids
  induction ids with
  | nil =>
    intro t m _
    simp [runMids]
  | cons mid rest ih =>
    intro t m hnd
    rw [List.nodup_cons] at hnd
    cases d with
    | true =>
      rw [runMids_dry]
      simp
    | false =>
      have hthr : isSuccessCall env m (Ev.sleepThrottle s) = false := rfl
      cases hr : retryFrom env mid 0 5 with
      | raised st0 evs0 =>
        simp only [runMids, Bool.false_eq_true, if_false, hr]
        have h1 := retryFrom_succCount env m mid 5 0
        rw [hr] at h1
        simpa [RetryRes.evs] using h1
      | done c0 evs0 =>
        simp only [runMids, Bool.false_eq_true, if_false, hr]
        rw [List.countP_append, List.countP_cons]
        by_cases he : m = mid
        · have h0 := runMids_succCount_zero env s false rest (if c0 then t + 1 else t) m
            (he ▸ hnd.1)
          have h1 := retryFrom_succCount env m mid 5 0
          rw [hr] at h1
          simp only [RetryRes.evs] at h1
          simp [hthr, h0]
          omega
        · have h0 := retryFrom_succCount_other env m mid he 5 0
          rw [hr] at h0
          simp only [RetryRes.evs] at h0
          have h1 := ih (if c0 then t + 1 else t) m hnd.2
          simp [hthr, h0]
          omega

lemma runMids_count_le (env : TrashEnv) (s : Rat) (d : Bool) :
    ∀ (ids : List String) (t t2 : Nat) (evs : List Ev),
      runMids env d s ids t = (BTRes.ok t2, evs) → t2 ≤ t + ids.length := by
  intro ids
  induction ids with
  | nil =>
    intro t t2 evs h
    simp only [runMids, Prod.mk.injEq, BTRes.ok.injEq] at h
    omega
  | cons mid rest ih =>
    intro t t2 evs h
    cases d with
    | true =>
      rw [runMids_dry] at h
      simp only [Prod.mk.injEq, BTRes.ok.injEq] at h
      obtain ⟨h1, h2⟩ := h
      simp only [List.length_cons] at h1 ⊢
      omega
    | false =>
      cases hr : retryFrom env mid 0 5 with
      | raised st0 evs0 =>
        simp only [runMids, Bool.false_eq_true, if_false, hr, Prod.mk.injEq] at h
        exact absurd h.1 (by simp)
      | done c0 evs0 =>
        cases c0 with
        | true =>
          rcases hq : runMids env false s rest (t + 1) with ⟨r2, e2⟩
          simp only [runMids, Bool.false_eq_true, if_false, if_true, hr, hq,
            Prod.mk.injEq] at h
          have := ih (t + 1) t2 e2 (by rw [hq, h.1])
          simp [List.length_cons]
          omega
        | false =>
          rcases hq : runMids env false s rest t with ⟨r2, e2⟩
          simp only [runMids, Bool.false_eq_true, if_false, hr, hq,
            Prod.mk.injEq] at h
          have := ih t t2 e2 (by rw [hq, h.1])
          simp [List.length_cons]
          omega

/-! ### Concrete behaviour of single retry rounds -/

lemma retryFrom_success_eq (env : TrashEnv) (mid : String) (attempt fuel : Nat)
    (he : env.trashResult mid attempt = TrashOut.success) :
    retryFrom env mid attempt (fuel + 1) = RetryRes.done true [Ev.trashCall mid attempt] := by
  simp [retryFrom, he]

lemma retryFrom_raise (env : TrashEnv) (mid : String) (attempt fuel : Nat) (st : Option Nat)
    (he : env.trashResult mid attempt = TrashOut.httpError st)
    (ht : transientStatus st = false) :
    retryFrom env mid attempt (fuel + 1) = RetryRes.raised st [Ev.trashCall mid attempt] := by
  simp [retryFrom, he, ht]

lemma retryFrom_transient_step (env : TrashEnv) (mid : String) (attempt fuel : Nat)
    (st : Option Nat)
    (he : env.trashResult mid attempt = TrashOut.httpError st)
    (ht : transientStatus st = true) :
    retryFrom env mid attempt (fuel + 1) =
      match retryFrom env mid (attempt + 1) fuel with
      | RetryRes.done c evs =>
        RetryRes.done c (Ev.trashCall mid attempt :: Ev.sleepBackoff (backoff attempt) :: evs)
      | RetryRes.raised s2 evs =>
        RetryRes.raised s2 (Ev.trashCall mid attempt :: Ev.sleepBackoff (backoff attempt) :: evs) := by
  simp [retryFrom, he, ht]

/-- Trace of a message whose five attempts all fail transiently: the loop
issues attempts 0 to 4, sleeps the backoff after each, and gives up without
re-raising and without counting. -/
lemma retryFrom_all_transient (env : TrashEnv) (mid : String)
    (h : ∀ k, k < 5 → ∃ st, env.trashResult mid k = TrashOut.httpError st ∧
        transientStatus st = true) :
    retryFrom env mid 0 5 = RetryRes.done false
      [Ev.trashCall mid 0, Ev.sleepBackoff (backoff 0),
       Ev.trashCall mid 1, Ev.sleepBackoff (backoff 1),
       Ev.trashCall mid 2, Ev.sleepBackoff (backoff 2),
       Ev.trashCall mid 3, Ev.sleepBackoff (backoff 3),
       Ev.trashCall mid 4, Ev.sleepBackoff (backoff 4)] := by
  obtain ⟨s0, e0, t0⟩ := h 0 (by omega)
  obtain ⟨s1, e1, t1⟩ := h 1 (by omega)
  obtain ⟨s2, e2, t2⟩ := h 2 (by omega)
  obtain ⟨s3, e3, t3⟩ := h 3 (by omega)
  obtain ⟨s4, e4, t4⟩ := h 4 (by omega)
  have r4 : retryFrom env mid 4 1 = RetryRes.done false
      [Ev.trashCall mid 4, Ev.sleepBackoff (backoff 4)] := by
    have step := retryFrom_transient_step env mid 4 0 s4 e4 t4
    rw [show (0 : Nat) + 1 = 1 from rfl] at step
    rw [step]
    rfl
  have r3 : retryFrom env mid 3 2 = RetryRes.done false
      [Ev.trashCall mid 3, Ev.sleepBackoff (backoff 3),
       Ev.trashCall mid 4, Ev.sleepBackoff (backoff 4)] := by
    have step := retryFrom_transient_step env mid 3 1 s3 e3 t3
    rw [show (1 : Nat) + 1 = 2 from rfl] at step
    rw [step, r4]
  have r2 : retryFrom env mid 2 3 = RetryRes.done false
      [Ev.trashCall mid 2, Ev.sleepBackoff (backoff 2),
       Ev.trashCall mid 3, Ev.sleepBackoff (backoff 3),
       Ev.trashCall mid 4, Ev.sleepBackoff (backoff 4)] := by
    have step := retryFrom_transient_step env mid 2 2 s2 e2 t2
    rw [show (2 : Nat) + 1 = 3 from rfl] at step
    rw [step, r3]
  have r1 : retryFrom env mid 1 4 = RetryRes.done false
      [Ev.trashCall mid 1, Ev.sleepBackoff (backoff 1),
       Ev.trashCall mid 2, Ev.sleepBackoff (backoff 2),
       Ev.trashCall mid 3, Ev.sleepBackoff (backoff 3),
       Ev.trashCall mid 4, Ev.sleepBackoff (backoff 4)] := by
    have step := retryFrom_transient_step env mid 1 3 s1 e1 t1
    rw [show (3 : Nat) + 1 = 4 from rfl] at step
    rw [step, r2]
  have step := retryFrom_transient_step env mid 0 4 s0 e0 t0
  rw [show (4 : Nat) + 1 = 5 from rfl] at step
  rw [step, r1]

/-! ### Pagination lemmas -/

lemma listLoop_none_cons (res : PageResp) (rest : List (Except PyErr PageResp))
    (acc : List String) :
    listLoop none (Except.ok res :: rest) acc =
      if tokenTruthy res.nextPageToken then listLoop none rest (acc ++ res.messages)
      else some (Except.ok (acc ++ res.messages)) := rfl

lemma listLoop_some_cons (m : Int) (res : PageResp) (rest : List (Except PyErr PageResp))
    (acc : List String) :
    listLoop (some m) (Except.ok res :: rest) acc =
      if (((acc ++ res.messages).length : Int) ≥ m) then
        some (Except.ok (pySliceTo (acc ++ res.messages) m))
      else if tokenTruthy res.nextPageToken then listLoop (some m) rest (acc ++ res.messages)
      else some (Except.ok (acc ++ res.messages)) := rfl

lemma listLoop_err_cons (mm : Option Int) (e : PyErr)
    (rest : List (Except PyErr PageResp)) (acc : List String) :
    listLoop mm (Except.error e :: rest) acc = some (Except.error e) := by
  cases mm <;> rfl

lemma listLoop_none_pages (pl : PageResp) (hpl : tokenTruthy pl.nextPageToken = false) :
    ∀ (ps : List PageResp), (∀ p ∈ ps, tokenTruthy p.nextPageToken = true) →
      ∀ acc, listLoop none ((ps ++ [pl]).map Except.ok) acc
        = some (Except.ok (acc ++ ((ps ++ [pl]).map PageResp.messages).flatten)) := by
  intro ps
  induction ps with
  | nil =>
    intro _ acc
    simp only [List.nil_append, List.map_cons, List.map_nil, listLoop_none_cons, hpl,
      Bool.false_eq_true, if_false, List.flatten_cons, List.flatten_nil, List.append_nil]
  | cons p ps ih =>
    intro hps acc
    have hp := hps p (List.mem_cons_self p ps)
    simp only [List.cons_append, List.map_cons, List.append_eq, listLoop_none_cons, hp,
      if_true, List.flatten_cons]
    rw [ih (fun q hq => hps q (List.mem_cons_of_mem p hq)) (acc ++ p.messages)]
    simp [List.append_assoc]

lemma listLoop_cap_pages (pl : PageResp) (hpl : tokenTruthy pl.nextPageToken = false)
    (m : Int) (hm : 0 ≤ m) :
    ∀ (ps : List PageResp), (∀ p ∈ ps, tokenTruthy p.nextPageToken = true) →
      ∀ acc, listLoop (some m) ((ps ++ [pl]).map Except.ok) acc
        = some (Except.ok
            ((acc ++ ((ps ++ [pl]).map PageResp.messages).flatten).take m.toNat)) := by
  intro ps
  induction ps with
  | nil =>
    intro _ acc
    simp only [List.nil_append, List.map_cons, List.map_nil, listLoop_some_cons,
      List.flatten_cons, List.flatten_nil, List.append_nil]
    by_cases hc : (((acc ++ pl.messages).length : Int) ≥ m)
    · rw [if_pos hc]
      simp only [pySliceTo, hm, if_pos]
    · rw [if_neg hc]
      simp only [hpl, Bool.false_eq_true, if_false]
      have hlen : (acc ++ pl.messages).length ≤ m.toNat := by omega
      rw [List.take_of_length_le hlen]
  | cons p ps ih =>
    intro hps acc
    have hp := hps p (List.mem_cons_self p ps)
    simp only [List.cons_append, List.map_cons, List.append_eq, listLoop_some_cons,
      List.flatten_cons]
    by_cases hc : (((acc ++ p.messages).length : Int) ≥ m)
    · rw [if_pos hc]
      have hle : m.toNat ≤ (acc ++ p.messages).length := by omega
      rw [← List.append_assoc, List.take_append_of_le_length hle]
      simp only [pySliceTo, hm, if_pos]
    · rw [if_neg hc]
      simp only [hp, if_true]
      rw [ih (fun q hq => hps q (List.mem_cons_of_mem p hq)) (acc ++ p.messages)]
      simp [List.append_assoc]

lemma listLoop_err (e : PyErr) (tail : List (Except PyErr PageResp)) :
    ∀ (ps : List PageResp), (∀ p ∈ ps, tokenTruthy p.nextPageToken = true) →
      ∀ acc, listLoop none (ps.map Except.ok ++ Except.error e :: tail) acc
        = some (Except.error e) := by
  intro ps
  induction ps with
  | nil =>
    intro _ acc
    simp only [List.map_nil, List.nil_append, listLoop_err_cons]
  | cons p ps ih =>
    intro hps acc
    have hp := hps p (List.mem_cons_self p ps)
    simp only [List.map_cons, List.cons_append, List.append_eq, listLoop_none_cons, hp,
      if_true]
    exact ih (fun q hq => hps q (List.mem_cons_of_mem p hq)) (acc ++ p.messages)

/-! ### Claim theorems -/

/-- C1: for every list of matched message IDs and every positive batch_size,
`batch_trash` with `dry_run=True` returns a count equal to the length of the
message ID list and performs no side effect at all — in particular it issues
no trash mutation call (the event trace is empty). -/
theorem c1_dry_run_count (env : TrashEnv) (ids : List String) (bs : Int) (s : Rat)
    (hbs : 0 < bs) :
    batch_trash env ids true bs s = (BTRes.ok ids.length, []) := by
  rw [batch_trash_pos env ids true bs s hbs, runMids_dry]
  simp

/-- Witness for C1 at a concrete input: three IDs, batch size 2. -/
theorem c1_dry_run_count_witness :
    (0 : Int) < 2 ∧
    batch_trash envOkAll ["a", "b", "c"] true 2 (1 / 5) = (BTRes.ok 3, []) := by
  refine ⟨by norm_num, ?_⟩
  have h := c1_dry_run_count envOkAll ["a", "b", "c"] 2 (1 / 5) (by norm_num)
  simpa using h

/-- C9: `batch_trash` requires a positive batch size: with `batch_size = 0`
the `range(0, n, 0)` raises `ValueError` before any message is processed,
and with a negative batch size the range is empty, so no message is
processed and the returned count is `0`, also for a non-empty ID list. -/
theorem c9_batch_size_guard (env : TrashEnv) (ids : List String) (d : Bool) (s : Rat) :
    batch_trash env ids d 0 s = (BTRes.valueError, []) ∧
    ∀ bs : Int, bs < 0 → batch_trash env ids d bs s = (BTRes.ok 0, []) := by
  constructor
  · simp [batch_trash]
  · intro bs hbs
    rw [batch_trash, if_neg (by omega), if_pos hbs]

/-- Witness for C9: batch size `-3` on a non-empty list returns `0` and does
nothing. -/
theorem c9_batch_size_guard_witness :
    (-3 : Int) < 0 ∧
    batch_trash envOkAll ["a"] false (-3) (1 / 5) = (BTRes.ok 0, []) :=
  ⟨by norm_num, (c9_batch_size_guard envOkAll ["a"] false (1 / 5)).2 (-3) (by norm_num)⟩

/-- C10: for every positive batch size, the slices
`message_ids[i:i+batch_size]` for `i in range(0, len(message_ids),
batch_size)` concatenate back to exactly the input list, and consequently
`batch_trash` processes the IDs in exactly the input order, independently of
the chunk boundaries (its behaviour equals the unchunked traversal). -/
theorem c10_chunks_concat (ids : List String) (bs : Nat) (hbs : 0 < bs) :
    (pyChunksOf ids bs).flatten = ids ∧
    ∀ (env : TrashEnv) (d : Bool) (s : Rat),
      batch_trash env ids d (bs : Int) s = runMids env d s ids 0 := by
  constructor
  · exact pyChunksOf_flatten ids bs hbs
  · intro env d s
    exact batch_trash_pos env ids d (bs : Int) s (by exact_mod_cast hbs)

/-- Witness for C10: chunks of size 2 of a three-element list flatten back to
the list. -/
theorem c10_chunks_concat_witness :
    0 < 2 ∧ (pyChunksOf ["a", "b", "c"] 2).flatten = ["a", "b", "c"] :=
  ⟨by norm_num, (c10_chunks_concat ["a", "b", "c"] 2 (by norm_num)).1⟩

/-- C2: the retry policy of `batch_trash`.  (i) No trash call is ever issued
with an attempt number outside 0..4, so a failing call is attempted at most 5
times; (ii) when all five attempts for a message fail with a transient status
(429/500/503), the loop performs exactly attempts 0..4, each followed by its
backoff sleep, then gives up without raising (count 0); (iii) when the trash
call raises an `HttpError` whose status is not transient, `batch_trash`
re-raises immediately: exactly one call was issued and the run aborts. -/
theorem c2_retry_policy (env : TrashEnv) (mid : String) (rest : List String)
    (bs : Int) (s : Rat) (hbs : 0 < bs) :
    (∀ (ids : List String) (d : Bool) (m : String) (k : Nat),
        Ev.trashCall m k ∈ (batch_trash env ids d bs s).2 → k < 5) ∧
    ((∀ k, k < 5 → ∃ st, env.trashResult mid k = TrashOut.httpError st ∧
        transientStatus st = true) →
      batch_trash env [mid] false bs s =
        (BTRes.ok 0,
         [Ev.trashCall mid 0, Ev.sleepBackoff (backoff 0),
          Ev.trashCall mid 1, Ev.sleepBackoff (backoff 1),
          Ev.trashCall mid 2, Ev.sleepBackoff (backoff 2),
          Ev.trashCall mid 3, Ev.sleepBackoff (backoff 3),
          Ev.trashCall mid 4, Ev.sleepBackoff (backoff 4),
          Ev.sleepThrottle s])) ∧
    (∀ st, env.trashResult mid 0 = TrashOut.httpError st → transientStatus st = false →
      batch_trash env (mid :: rest) false bs s =
        (BTRes.httpRaised st, [Ev.trashCall mid 0])) := by
  refine ⟨?_, ?_, ?_⟩
  · intro ids d m k h
    rw [batch_trash_pos env ids d bs s hbs] at h
    exact (runMids_calls env s d ids 0 m k h).2
  · intro h
    rw [batch_trash_pos env [mid] false bs s hbs]
    have hA := retryFrom_all_transient env mid h
    simp [runMids, hA]
  · intro st he ht
    rw [batch_trash_pos env (mid :: rest) false bs s hbs]
    have hr := retryFrom_raise env mid 0 4 st he ht
    rw [show (4 : Nat) + 1 = 5 from rfl] at hr
    simp [runMids, hr]

/-- Witness for C2 at concrete inputs: an always-429 oracle exhausts the five
attempts without raising; an always-404 oracle aborts after one call. -/
theorem c2_retry_policy_witness :
    (0 : Int) < 1 ∧
    batch_trash envT429 ["a"] false 1 (1 / 5) =
      (BTRes.ok 0,
       [Ev.trashCall "a" 0, Ev.sleepBackoff (backoff 0),
        Ev.trashCall "a" 1, Ev.sleepBackoff (backoff 1),
        Ev.trashCall "a" 2, Ev.sleepBackoff (backoff 2),
        Ev.trashCall "a" 3, Ev.sleepBackoff (backoff 3),
        Ev.trashCall "a" 4, Ev.sleepBackoff (backoff 4),
        Ev.sleepThrottle (1 / 5)]) ∧
    batch_trash envE404 ["a"] false 1 (1 / 5) =
      (BTRes.httpRaised (some 404), [Ev.trashCall "a" 0]) := by
  refine ⟨by norm_num, ?_, ?_⟩
  · exact (c2_retry_policy envT429 "a" [] 1 (1 / 5) (by norm_num)).2.1
      (fun k _ => ⟨some 429, rfl, rfl⟩)
  · exact (c2_retry_policy envE404 "a" [] 1 (1 / 5) (by norm_num)).2.2
      (some 404) rfl rfl

/-- C5: backoff durations.  Under a message whose five attempts all fail
transiently, the backoff sleeps of the run are, in order, 0.5s, 1s, 2s, 4s,
8s — one after the k-th failed attempt — and, in general, the backoff of
attempt k is `(2 ** k) * 0.5 = 0.5 * 2^k` seconds. -/
theorem c5_backoff_durations (env : TrashEnv) (mid : String) (bs : Int) (s : Rat)
    (hbs : 0 < bs)
    (h : ∀ k, k < 5 → ∃ st, env.trashResult mid k = TrashOut.httpError st ∧
        transientStatus st = true) :
    backoffSleeps (batch_trash env [mid] false bs s).2
      = [1 / 2, 1, 2, 4, 8] ∧
    ∀ k : Nat, backoff k = (1 / 2 : Rat) * 2 ^ k := by
  constructor
  · rw [batch_trash_pos env [mid] false bs s hbs]
    have hA := retryFrom_all_transient env mid h
    simp [runMids, hA, backoffSleeps, backoff]
    norm_num
  · intro k
    rw [backoff]
    ring

/-- Witness for C5: the always-500 oracle produces exactly the five backoff
durations. -/
theorem c5_backoff_durations_witness :
    backoffSleeps (batch_trash envT500 ["a"] false 1 (1 / 5)).2
      = [1 / 2, 1, 2, 4, 8] :=
  (c5_backoff_durations envT500 "a" 1 (1 / 5) (by norm_num)
    (fun k _ => ⟨some 500, rfl, rfl⟩)).1

/-- C6: at-most-once processing.  For a duplicate-free ID list and positive
batch size, the returned count never exceeds the number of IDs (each ID is
counted at most once), and for every ID the trace contains at most one
successful trash mutation. -/
theorem c6_at_most_once (env : TrashEnv) (ids : List String) (d : Bool) (bs : Int)
    (s : Rat) (hnd : ids.Nodup) (hbs : 0 < bs) :
    (∀ t, (batch_trash env ids d bs s).1 = BTRes.ok t → t ≤ ids.length) ∧
    (∀ mid, (batch_trash env ids d bs s).2.countP (isSuccessCall env mid) ≤ 1) := by
  rw [batch_trash_pos env ids d bs s hbs]
  constructor
  · intro t ht
    rcases hq : runMids env d s ids 0 with ⟨r, evs⟩
    rw [hq] at ht
    simp only at ht
    subst ht
    have := runMids_count_le env s d ids 0 t evs hq
    omega
  · intro mid
    exact runMids_succCount_le_one env s d ids 0 mid hnd

/-- Witness for C6 at a concrete duplicate-free list. -/
theorem c6_at_most_once_witness :
    (["a", "b"] : List String).Nodup ∧ (0 : Int) < 1 ∧
    (batch_trash envOkAll ["a", "b"] false 1 (1 / 5)).2.countP
      (isSuccessCall envOkAll "a") ≤ 1 :=
  ⟨by decide, by norm_num,
    (c6_at_most_once envOkAll ["a", "b"] false 1 (1 / 5) (by decide) (by norm_num)).2 "a"⟩

/-- C8: a message whose five attempts all fail transiently is skipped
silently: no exception escapes, the message is not counted, and the run
continues with the remaining IDs exactly as if the message were absent (its
five failed calls, backoff sleeps and throttle sleep are merely prefixed to
the trace). -/
theorem c8_transient_exhaustion_skips (env : TrashEnv) (mid : String)
    (rest : List String) (bs : Int) (s : Rat) (hbs : 0 < bs)
    (h : ∀ k, k < 5 → ∃ st, env.trashResult mid k = TrashOut.httpError st ∧
        transientStatus st = true) :
    batch_trash env (mid :: rest) false bs s =
      ((batch_trash env rest false bs s).1,
       [Ev.trashCall mid 0, Ev.sleepBackoff (backoff 0),
        Ev.trashCall mid 1, Ev.sleepBackoff (backoff 1),
        Ev.trashCall mid 2, Ev.sleepBackoff (backoff 2),
        Ev.trashCall mid 3, Ev.sleepBackoff (backoff 3),
        Ev.trashCall mid 4, Ev.sleepBackoff (backoff 4),
        Ev.sleepThrottle s] ++ (batch_trash env rest false bs s).2) := by
  rw [batch_trash_pos env (mid :: rest) false bs s hbs,
    batch_trash_pos env rest false bs s hbs]
  have hA := retryFrom_all_transient env mid h
  simp [runMids, hA]

/-- Witness for C8: message `a` always fails transiently, `b` succeeds; the
run returns the result for `["b"]` with the skip trace for `a` prefixed. -/
theorem c8_transient_exhaustion_skips_witness :
    batch_trash envSkipA ["a", "b"] false 1 (1 / 5) =
      ((batch_trash envSkipA ["b"] false 1 (1 / 5)).1,
       [Ev.trashCall "a" 0, Ev.sleepBackoff (backoff 0),
        Ev.trashCall "a" 1, Ev.sleepBackoff (backoff 1),
        Ev.trashCall "a" 2, Ev.sleepBackoff (backoff 2),
        Ev.trashCall "a" 3, Ev.sleepBackoff (backoff 3),
        Ev.trashCall "a" 4, Ev.sleepBackoff (backoff 4),
        Ev.sleepThrottle (1 / 5)] ++ (batch_trash envSkipA ["b"] false 1 (1 / 5)).2) :=
  c8_transient_exhaustion_skips envSkipA "a" ["b"] 1 (1 / 5) (by norm_num)
    (fun k _ => ⟨some 503, by simp [envSkipA], rfl⟩)

/-- C3 counterexample: with the negative cap `--max = -1` and a single page
of two matching messages, `list_message_ids` returns one ID (the Python
slice `ids[:-1]` drops the last ID), although the claim requires a list of
exactly `-1` IDs (impossible) since the matched count 2 is not fewer
than `-1`. -/
theorem c3_negative_max_counterexample :
    list_message_ids [Except.ok ⟨["a", "b"], none⟩] (some (-1))
      = some (Except.ok ["a"]) ∧
    ((["a"] : List String).length : Int) ≠ -1 ∧ ¬ ((2 : Int) < -1) := by
  refine ⟨rfl, by decide, by decide⟩

/-- C3 (amended): for every integer N ≥ 0 passed as --max,
`list_message_ids` returns the first N matched message IDs — exactly N when
at least N match, all of them (fewer than N) otherwise — and when --max is
None no cap is applied. -/
theorem c3_max_cap (ps : List PageResp) (pl : PageResp) (m : Int) (hm : 0 ≤ m)
    (hps : ∀ p ∈ ps, tokenTruthy p.nextPageToken = true)
    (hpl : tokenTruthy pl.nextPageToken = false) :
    list_message_ids ((ps ++ [pl]).map Except.ok) (some m)
      = some (Except.ok ((((ps ++ [pl]).map PageResp.messages).flatten).take m.toNat)) ∧
    list_message_ids ((ps ++ [pl]).map Except.ok) none
      = some (Except.ok (((ps ++ [pl]).map PageResp.messages).flatten)) := by
  constructor
  · have h := listLoop_cap_pages pl hpl m hm ps hps []
    simpa [list_message_ids] using h
  · have h := listLoop_none_pages pl hpl ps hps []
    simpa [list_message_ids] using h

/-- Witness for C3 (amended): cap 2 over two pages holding three IDs yields
the first two IDs. -/
theorem c3_max_cap_witness :
    list_message_ids
      [Except.ok ⟨["a", "b"], some "t"⟩, Except.ok ⟨["c"], none⟩] (some 2)
      = some (Except.ok ["a", "b"]) := by
  have h := (c3_max_cap [⟨["a", "b"], some "t"⟩] ⟨["c"], none⟩ 2 (by norm_num)
      (by decide) (by decide)).1
  simpa using h

/-- C4: with no cap, `list_message_ids` returns the concatenation, in order,
of the message IDs of every page, consuming responses while the next-page
token is truthy and stopping exactly at the first response whose token is
absent (or empty). -/
theorem c4_pagination_concat (ps : List PageResp) (pl : PageResp)
    (hps : ∀ p ∈ ps, tokenTruthy p.nextPageToken = true)
    (hpl : tokenTruthy pl.nextPageToken = false) :
    list_message_ids ((ps ++ [pl]).map Except.ok) none
      = some (Except.ok (((ps ++ [pl]).map PageResp.messages).flatten)) := by
  have h := listLoop_none_pages pl hpl ps hps []
  simpa [list_message_ids] using h

/-- Witness for C4: two truthy-token pages followed by a final page
concatenate in order. -/
theorem c4_pagination_concat_witness :
    list_message_ids
      [Except.ok ⟨["a"], some "t1"⟩, Except.ok ⟨["b", "c"], some "t2"⟩,
       Except.ok ⟨["d"], none⟩] none
      = some (Except.ok ["a", "b", "c", "d"]) := by
  have h := c4_pagination_concat [⟨["a"], some "t1"⟩, ⟨["b", "c"], some "t2"⟩]
      ⟨["d"], none⟩ (by decide) (by decide)
  simpa using h

/-- C7 counterexample: an exception raised while loading the cached token
inside `get_gmail_service` is caught by the `try/except` and recovered from
(the OAuth flow runs instead), so the call returns `ok` rather than
propagating the error — contradicting the claim that authentication errors
are never caught by recovery logic. -/
theorem c7_token_load_error_recovered :
    authEnvLoadFail.loadToken = Except.error (PyErr.err "corrupt token file") ∧
    get_gmail_service authEnvLoadFail = Except.ok ⟨credsFresh⟩ ∧
    (Except.ok ⟨credsFresh⟩ : Except PyErr GmailService)
      ≠ Except.error (PyErr.err "corrupt token file") := by
  exact ⟨rfl, rfl, fun h => Except.noConfusion h⟩

/-- C7 (amended): errors raised during pagination propagate directly to the
caller; in `get_gmail_service`, an exception from loading the cached token
is caught and recovered from by falling back to the refresh/OAuth flow,
while exceptions from the token refresh, the OAuth flow, the token-file
write and the service build are not caught and propagate directly. -/
theorem c7_error_propagation (env : AuthEnv) (c : Creds) (e e0 : PyErr)
    (ps : List PageResp) (tail : List (Except PyErr PageResp)) :
    ((∀ p ∈ ps, tokenTruthy p.nextPageToken = true) →
      list_message_ids (ps.map Except.ok ++ Except.error e :: tail) none
        = some (Except.error e)) ∧
    (env.loadToken = Except.ok c → c.valid = false → c.expired = true →
      c.refresh_token = true → env.refreshResult = Except.error e →
      get_gmail_service env = Except.error e) ∧
    (env.loadToken = Except.error e0 → env.flowResult = Except.error e →
      get_gmail_service env = Except.error e) ∧
    (env.loadToken = Except.error e0 → env.flowResult = Except.ok c →
      env.writeResult c.to_json = Except.error e →
      get_gmail_service env = Except.error e) ∧
    (env.loadToken = Except.ok c → c.valid = true → env.buildResult c = Except.error e →
      get_gmail_service env = Except.error e) ∧
    (∀ svc, env.loadToken = Except.error e0 → env.flowResult = Except.ok c →
      env.writeResult c.to_json = Except.ok () → env.buildResult c = Except.ok svc →
      get_gmail_service env = Except.ok svc) := by
  refine ⟨?_, ?_, ?_, ?_, ?_, ?_⟩
  · intro hps
    exact listLoop_err e tail ps hps []
  · intro h1 h2 h3 h4 h5
    simp [get_gmail_service, h1, h2, h3, h4, h5, Bind.bind, Except.bind]
  · intro h1 h2
    simp [get_gmail_service, h1, h2, Bind.bind, Except.bind]
  · intro h1 h2 h3
    simp [get_gmail_service, h1, h2, h3, Bind.bind, Except.bind]
  · intro h1 h2 h3
    simp [get_gmail_service, h1, h2, h3, Bind.bind, Except.bind]
  · intro svc h1 h2 h3 h4
    simp [get_gmail_service, h1, h2, h3, h4, Bind.bind, Except.bind]

/-- Witness for C7 (amended): a failing token refresh propagates out of
`get_gmail_service`. -/
theorem c7_error_propagation_witness :
    get_gmail_service authEnvRefreshFail = Except.error (PyErr.err "refresh failed") :=
  (c7_error_propagation authEnvRefreshFail credsStale (PyErr.err "refresh failed")
    (PyErr.err "unused") [] []).2.1 rfl rfl rfl rfl rfl

end GmailCleanup
